import Mathlib

/-!
Verification of the finanpy balance-maintenance core

Shallow embedding of the account-balance maintenance subsystem of the
finanpy personal-finance application, and proofs of the specification's
claims about it.

Conventions of the embedding:

* Monetary values (`DecimalField(max_digits=12, decimal_places=2)`) are
  exact fixed-point decimals in the source; we represent them as integers
  in cents (`Int`), which is exact for all the arithmetic the code does
  (addition, subtraction, multiplication by -1).
* Database rows are records; a table keyed by primary key is either a
  function `Nat → Option row` (accounts, where only point updates occur)
  or an association list `List (Nat × row)` (transactions, where we must
  sum over all rows).
* `Account.objects.filter(pk=account_id).update(balance=F('balance') + delta)`
  is a point update that silently matches zero rows when the pk is absent.
* Django signal handlers are modelled as the state transformers they are:
  `post_save` on create runs after the row insert, `pre_save` on update
  runs before the row update, `post_delete` runs after the row delete.
-/

/-- The `Transaction.TransactionType` enum from `transactions/models.py`:
INCOME ('Entrada') or EXPENSE ('Saída'). -/
inductive TransactionType where
  | INCOME
  | EXPENSE
deriving DecidableEq, Repr

/-- A `Transaction` row (`transactions/models.py`): references exactly one
account and one category by pk, has a type and a positive amount (cents).
Fields not involved in balance maintenance (dates, description, timestamps)
are omitted. -/
structure Tx where
  account_id : Nat
  category_id : Nat
  transaction_type : TransactionType
  amount : Int
deriving DecidableEq, Repr

/-- Function `_calculate_delta` from `transactions/signals.py` (the identical static
copy in `transactions/forms.py` is shared): INCOME returns the amount,
anything else returns `amount * Decimal('-1')`. -/
def _calculate_delta (amount : Int) (transaction_type : TransactionType) : Int :=
  if transaction_type = TransactionType.INCOME then amount
  else amount * (-1)

/-- The signed effect of a transaction row on its account, via
`_calculate_delta`. -/
def txDelta (t : Tx) : Int :=
  _calculate_delta t.amount t.transaction_type

/-- Function `_apply_delta` from `transactions/signals.py`:
`Account.objects.filter(pk=account_id).update(balance=F('balance') + delta)`.
A point update of the balance column; when no row has that pk the update
matches zero rows and nothing changes. -/
def _apply_delta (accounts : Nat → Option Int) (account_id : Nat) (delta : Int) :
    Nat → Option Int :=
  fun pk => if pk = account_id then (accounts pk).map (fun b => b + delta) else accounts pk

/-- The ledger store: account balances keyed by pk, and transaction rows
keyed by pk. -/
structure LedgerState where
  accounts : Nat → Option Int
  txs : List (Nat × Tx)

/-- Primary-key lookup in the transaction table
(`Transaction.objects.get(pk=...)`, returning `none` for `DoesNotExist`). -/
def findTx (pk : Nat) : List (Nat × Tx) → Option Tx
  | [] => none
  | (k, t) :: rest => if k = pk then some t else findTx pk rest

/-- The row `UPDATE` that persists the new field values of an existing
transaction (the save that follows `pre_save`). -/
def replaceTx (pk : Nat) (t : Tx) (txs : List (Nat × Tx)) : List (Nat × Tx) :=
  txs.map (fun p => if p.1 = pk then (pk, t) else p)

/-- The row `DELETE` of a transaction. -/
def removeTx (pk : Nat) (txs : List (Nat × Tx)) : List (Nat × Tx) :=
  txs.filter (fun p => p.1 ≠ pk)

/-- Creating a transaction (`transactions/views.py` `TransactionCreateView`
saving the form): the row is inserted, then the `post_save` handler
`update_balance_on_create` (`transactions/signals.py`) applies
`_calculate_delta(amount, transaction_type)` to the referenced account. -/
def createTransaction (s : LedgerState) (pk : Nat) (t : Tx) : LedgerState :=
  { accounts := _apply_delta s.accounts t.account_id (_calculate_delta t.amount t.transaction_type),
    txs := (pk, t) :: s.txs }

/-- The `pre_save` handler `update_balance_on_update`
(`transactions/signals.py`), acting on balances only: load the previous
row; if it is gone, return; if the account is unchanged and the old and
new deltas agree, skip; otherwise revert the previous delta on the
previous account and apply the new delta on the (possibly different) new
account. -/
def update_balance_on_update (s : LedgerState) (pk : Nat) (t : Tx) : LedgerState :=
  match findTx pk s.txs with
  | none => s
  | some previous =>
    let previous_delta := _calculate_delta previous.amount previous.transaction_type
    let new_delta := _calculate_delta t.amount t.transaction_type
    if previous.account_id = t.account_id ∧ previous_delta = new_delta then s
    else
      { s with accounts :=
          (_apply_delta (_apply_delta s.accounts previous.account_id (-previous_delta))
            t.account_id new_delta) }

/-- Updating an existing transaction (`TransactionUpdateView` saving the
form): the `pre_save` handler adjusts balances, then the row update
persists the new values.  The user-facing view only ever updates rows
that exist (`get_object`), so when the row is absent both the handler and
the row update are vacuous here. -/
def updateTransaction (s : LedgerState) (pk : Nat) (t : Tx) : LedgerState :=
  let s1 := update_balance_on_update s pk t
  { s1 with txs := replaceTx pk t s1.txs }

/-- Deleting a transaction (`TransactionDeleteView`): the row is deleted,
then the `post_delete` handler `update_balance_on_delete`
(`transactions/signals.py`) applies the negated delta to the account the
deleted row referenced. -/
def deleteTransaction (s : LedgerState) (pk : Nat) : LedgerState :=
  match findTx pk s.txs with
  | none => s
  | some t =>
    { accounts := _apply_delta s.accounts t.account_id
        (-(_calculate_delta t.amount t.transaction_type)),
      txs := removeTx pk s.txs }

/-- The three user-facing transaction writes. -/
inductive TxOp where
  | create (pk : Nat) (t : Tx)
  | update (pk : Nat) (t : Tx)
  | delete (pk : Nat)

/-- One write applied to the ledger. -/
def applyOp (s : LedgerState) : TxOp → LedgerState
  | .create pk t => createTransaction s pk t
  | .update pk t => updateTransaction s pk t
  | .delete pk => deleteTransaction s pk

/-- A sequence of writes applied to the ledger. -/
def runOps (s : LedgerState) (ops : List TxOp) : LedgerState :=
  ops.foldl applyOp s

/-- The contribution of one transaction row to the balance of account
`account_id`: its signed delta when it references that account, else 0. -/
def txWeight (account_id : Nat) (p : Nat × Tx) : Int :=
  if p.2.account_id = account_id then _calculate_delta p.2.amount p.2.transaction_type else 0

/-- Sum of signed effects of all transaction rows referencing
`account_id`. -/
def txSum (account_id : Nat) (txs : List (Nat × Tx)) : Int :=
  (txs.map (txWeight account_id)).sum

/-- The ledger invariant: every existing account's balance equals the sum
of signed effects of the transactions currently referencing it. -/
def BalancesConsistent (s : LedgerState) : Prop :=
  ∀ account_id b, s.accounts account_id = some b → b = txSum account_id s.txs

/-- Well-formedness of the transaction table: primary keys are unique. -/
def KeysNodup (s : LedgerState) : Prop :=
  (s.txs.map Prod.fst).Nodup

/-- A create uses a fresh primary key (the database always assigns one);
updates and deletes are unconstrained. -/
def opFresh (s : LedgerState) : TxOp → Prop
  | .create pk _ => findTx pk s.txs = none
  | _ => True

/-- A legal sequence of writes: each create in turn uses a fresh pk. -/
def opsLegal (s : LedgerState) : List TxOp → Prop
  | [] => True
  | op :: rest => opFresh s op ∧ opsLegal (applyOp s op) rest

/-! ## Basic facts about `_apply_delta` -/

/-- Value of a point update at the updated pk. -/
theorem apply_delta_at (accounts : Nat → Option Int) (account_id : Nat) (delta : Int) :
    _apply_delta accounts account_id delta account_id
      = (accounts account_id).map (fun b => b + delta) := by
  simp [_apply_delta]

/-- Value of a point update away from the updated pk. -/
theorem apply_delta_ne (accounts : Nat → Option Int) (account_id : Nat) (delta : Int)
    (pk : Nat) (h : pk ≠ account_id) :
    _apply_delta accounts account_id delta pk = accounts pk := by
  simp [_apply_delta, h]

/-- Applying a delta and then its negation restores every balance. -/
theorem apply_delta_inverse (accounts : Nat → Option Int) (account_id : Nat) (delta : Int) :
    _apply_delta (_apply_delta accounts account_id delta) account_id (-delta) = accounts := by
  funext pk
  unfold _apply_delta
  by_cases hpk : pk = account_id
  · subst hpk
    cases accounts pk with
    | none => simp
    | some b => simp
  · simp [hpk]

/-- C9: If the account a balance adjustment targets does not exist at
mutation time, applying a delta is a silent no-op: `_apply_delta`'s
filtered update matches zero rows, so the whole account table — hence
every existing account's balance — is unchanged, and no error or retry
occurs. -/
theorem apply_delta_missing_account_noop (accounts : Nat → Option Int) (account_id : Nat)
    (delta : Int) (h : accounts account_id = none) :
    _apply_delta accounts account_id delta = accounts := by
  funext pk
  unfold _apply_delta
  by_cases hpk : pk = account_id
  · subst hpk; rw [h]; simp
  · simp [hpk]

/-- Witness for C9 at a concrete table: account 2 is absent, so adding
300 to it changes nothing. -/
theorem apply_delta_missing_account_noop_witness :
    _apply_delta (fun pk => if pk = 1 then some 500 else none) 2 300
      = (fun pk => if pk = 1 then some 500 else none) :=
  apply_delta_missing_account_noop (fun pk => if pk = 1 then some 500 else none) 2 300 rfl

/-! ## C5: delete reverses the stored effect -/

/-- C5: Deleting a transaction applies the negated delta to the account
the deleted row referenced, and consequently creating any transaction and
then deleting it restores every account balance exactly (create followed
by delete is the identity on balances). -/
theorem delete_reverses_stored_effect (s : LedgerState) (pk : Nat) (prev : Tx)
    (h : findTx pk s.txs = some prev) :
    ((deleteTransaction s pk).accounts
        = _apply_delta s.accounts prev.account_id
            (-(_calculate_delta prev.amount prev.transaction_type)))
    ∧ ∀ (s' : LedgerState) (pk' : Nat) (t : Tx),
        (deleteTransaction (createTransaction s' pk' t) pk').accounts = s'.accounts := by
  constructor
  · unfold deleteTransaction
    rw [h]
  · intro s' pk' t
    have hfind : findTx pk' (createTransaction s' pk' t).txs = some t := by
      simp [createTransaction, findTx]
    unfold deleteTransaction
    rw [hfind]
    exact apply_delta_inverse s'.accounts t.account_id _

/-- Witness for C5: a ledger holding one EXPENSE 100.00 transaction on
account 1. -/
theorem delete_reverses_stored_effect_witness :
    (deleteTransaction
        { accounts := fun pk => if pk = 1 then some (-10000) else none,
          txs := [(4, { account_id := 1, category_id := 2,
                        transaction_type := .EXPENSE, amount := 10000 })] } 4).accounts
      = _apply_delta (fun pk => if pk = 1 then some (-10000) else none) 1 (-(-10000)) :=
  (delete_reverses_stored_effect
    { accounts := fun pk => if pk = 1 then some (-10000) else none,
      txs := [(4, { account_id := 1, category_id := 2,
                    transaction_type := .EXPENSE, amount := 10000 })] } 4
    { account_id := 1, category_id := 2, transaction_type := .EXPENSE, amount := 10000 }
    rfl).1

/-! ## C6: a no-effect update mutates no balance -/

/-- C6: When an update keeps the account reference and the old delta
equals the new delta (for instance only the description changed), the
`pre_save` handler skips and every account's balance is identical before
and after the update. -/
theorem noop_update_preserves_balances (s : LedgerState) (pk : Nat) (t : Tx) (prev : Tx)
    (h : findTx pk s.txs = some prev)
    (hacc : prev.account_id = t.account_id)
    (hdelta : _calculate_delta prev.amount prev.transaction_type
      = _calculate_delta t.amount t.transaction_type) :
    (updateTransaction s pk t).accounts = s.accounts := by
  show (update_balance_on_update s pk t).accounts = s.accounts
  unfold update_balance_on_update
  rw [h]
  simp [hacc, hdelta]

/-- Witness for C6: re-saving an INCOME 25.00 transaction with only the
category changed leaves account 1's balance untouched. -/
theorem noop_update_preserves_balances_witness :
    (updateTransaction
        { accounts := fun pk => if pk = 1 then some 2500 else none,
          txs := [(9, { account_id := 1, category_id := 2,
                        transaction_type := .INCOME, amount := 2500 })] } 9
        { account_id := 1, category_id := 3,
          transaction_type := .INCOME, amount := 2500 }).accounts
      = (fun pk => if pk = 1 then some 2500 else none) :=
  noop_update_preserves_balances
    { accounts := fun pk => if pk = 1 then some 2500 else none,
      txs := [(9, { account_id := 1, category_id := 2,
                    transaction_type := .INCOME, amount := 2500 })] } 9
    { account_id := 1, category_id := 3, transaction_type := .INCOME, amount := 2500 }
    { account_id := 1, category_id := 2, transaction_type := .INCOME, amount := 2500 }
    rfl rfl rfl

/-! ## C2: update reconciliation and the specification's scenario trace -/

/-- Scenario start state: one account (pk 1) with balance 1000.00 and no
transactions. -/
def traceS0 : LedgerState :=
  { accounts := fun pk => if pk = 1 then some 100000 else none, txs := [] }

/-- Scenario: the created INCOME 500.00 transaction. -/
def traceT1 : Tx :=
  { account_id := 1, category_id := 1, transaction_type := .INCOME, amount := 50000 }

/-- Scenario: the updated values, EXPENSE 200.00. -/
def traceT2 : Tx :=
  { account_id := 1, category_id := 2, transaction_type := .EXPENSE, amount := 20000 }

/-- C2: When an update finds a previous row and either the account changed
or the old delta differs from the new delta, the handler subtracts the old
delta from the previous account's balance and adds the new delta to the
(possibly different) new account's balance; and the specification's
scenario trace holds: balance 1000.00, create INCOME 500.00 gives
1500.00, update it to EXPENSE 200.00 gives 800.00, delete it gives
1000.00. -/
theorem update_moves_old_delta_to_new_account (s : LedgerState) (pk : Nat) (t prev : Tx)
    (h : findTx pk s.txs = some prev)
    (hchange : ¬(prev.account_id = t.account_id ∧
      _calculate_delta prev.amount prev.transaction_type
        = _calculate_delta t.amount t.transaction_type)) :
    ((updateTransaction s pk t).accounts
        = _apply_delta
            (_apply_delta s.accounts prev.account_id
              (-(_calculate_delta prev.amount prev.transaction_type)))
            t.account_id (_calculate_delta t.amount t.transaction_type))
    ∧ (createTransaction traceS0 7 traceT1).accounts 1 = some 150000
    ∧ (updateTransaction (createTransaction traceS0 7 traceT1) 7 traceT2).accounts 1
        = some 80000
    ∧ (deleteTransaction
          (updateTransaction (createTransaction traceS0 7 traceT1) 7 traceT2) 7).accounts 1
        = some 100000 := by
  refine ⟨?_, by decide, by decide, by decide⟩
  show (update_balance_on_update s pk t).accounts = _
  unfold update_balance_on_update
  rw [h]
  simp [hchange]

/-- Witness for C2: moving an INCOME 100.00 transaction from account 1 to
account 2 as an EXPENSE 30.00. -/
theorem update_moves_old_delta_to_new_account_witness :
    (updateTransaction
        { accounts := fun pk => if pk = 1 then some 10000 else if pk = 2 then some 0 else none,
          txs := [(5, { account_id := 1, category_id := 1,
                        transaction_type := .INCOME, amount := 10000 })] } 5
        { account_id := 2, category_id := 4,
          transaction_type := .EXPENSE, amount := 3000 }).accounts
      = _apply_delta
          (_apply_delta
            (fun pk => if pk = 1 then some 10000 else if pk = 2 then some 0 else none) 1
            (-(_calculate_delta 10000 .INCOME))) 2
          (_calculate_delta 3000 .EXPENSE) :=
  (update_moves_old_delta_to_new_account
    { accounts := fun pk => if pk = 1 then some 10000 else if pk = 2 then some 0 else none,
      txs := [(5, { account_id := 1, category_id := 1,
                    transaction_type := .INCOME, amount := 10000 })] } 5
    { account_id := 2, category_id := 4, transaction_type := .EXPENSE, amount := 3000 }
    { account_id := 1, category_id := 1, transaction_type := .INCOME, amount := 10000 }
    rfl (by decide)).1

/-! ## C1: the ledger invariant is preserved by every write sequence -/

theorem txSum_cons (account_id : Nat) (p : Nat × Tx) (txs : List (Nat × Tx)) :
    txSum account_id (p :: txs) = txWeight account_id p + txSum account_id txs := by
  simp [txSum]

/-- Lookup `findTx` misses exactly when the pk is not among the keys. -/
theorem findTx_eq_none_iff (pk : Nat) (txs : List (Nat × Tx)) :
    findTx pk txs = none ↔ pk ∉ txs.map Prod.fst := by
  induction txs with
  | nil => simp [findTx]
  | cons p rest ih =>
    obtain ⟨k, t⟩ := p
    rw [findTx]
    by_cases hk : k = pk
    · subst hk
      simp
    · simp only [if_neg hk, List.map_cons, List.mem_cons, ih]
      constructor
      · intro h hmem
        rcases hmem with h1 | h2
        · exact hk h1.symm
        · exact h h2
      · intro h h2
        exact h (Or.inr h2)

/-- Replacing an absent pk changes nothing. -/
theorem replaceTx_not_mem (pk : Nat) (t : Tx) (txs : List (Nat × Tx))
    (h : pk ∉ txs.map Prod.fst) : replaceTx pk t txs = txs := by
  induction txs with
  | nil => rfl
  | cons p rest ih =>
    simp only [List.map_cons, List.mem_cons, not_or] at h
    have hp : ¬p.1 = pk := fun hh => h.1 hh.symm
    simp only [replaceTx, List.map_cons, if_neg hp]
    rw [show rest.map (fun q => if q.1 = pk then (pk, t) else q) = replaceTx pk t rest from rfl,
      ih h.2]

/-- Removing an absent pk changes nothing. -/
theorem removeTx_not_mem (pk : Nat) (txs : List (Nat × Tx))
    (h : pk ∉ txs.map Prod.fst) : removeTx pk txs = txs := by
  induction txs with
  | nil => rfl
  | cons p rest ih =>
    simp only [List.map_cons, List.mem_cons, not_or] at h
    have hp : ¬p.1 = pk := fun hh => h.1 hh.symm
    simp only [removeTx, List.filter_cons]
    rw [if_pos (by simpa using hp)]
    rw [show rest.filter (fun q => q.1 ≠ pk) = removeTx pk rest from rfl, ih h.2]

/-- Replacement preserves the key list. -/
theorem replaceTx_keys (pk : Nat) (t : Tx) (txs : List (Nat × Tx)) :
    (replaceTx pk t txs).map Prod.fst = txs.map Prod.fst := by
  induction txs with
  | nil => rfl
  | cons p rest ih =>
    simp only [replaceTx, List.map_cons] at *
    rw [ih]
    by_cases hp : p.1 = pk
    · rw [if_pos hp]
      simp [hp]
    · rw [if_neg hp]

/-- With unique keys, replacing a found row shifts every per-account sum
by the difference of the row weights. -/
theorem txSum_replaceTx (account_id pk : Nat) (t prev : Tx) (txs : List (Nat × Tx))
    (hnodup : (txs.map Prod.fst).Nodup) (h : findTx pk txs = some prev) :
    txSum account_id (replaceTx pk t txs)
      = txSum account_id txs - txWeight account_id (pk, prev)
        + txWeight account_id (pk, t) := by
  induction txs with
  | nil => simp [findTx] at h
  | cons p rest ih =>
    obtain ⟨k, u⟩ := p
    simp only [List.map_cons, List.nodup_cons] at hnodup
    rw [findTx] at h
    by_cases hk : k = pk
    · subst hk
      rw [if_pos rfl] at h
      injection h with h
      subst h
      have hrest : replaceTx k t rest = rest :=
        replaceTx_not_mem k t rest hnodup.1
      rw [show replaceTx k t ((k, u) :: rest)
            = (if (k, u).1 = k then (k, t) else (k, u)) :: replaceTx k t rest from rfl]
      rw [if_pos (show (k, u).1 = k from rfl), hrest, txSum_cons, txSum_cons]
      ring
    · rw [if_neg hk] at h
      rw [show replaceTx pk t ((k, u) :: rest)
            = (if (k, u).1 = pk then (pk, t) else (k, u)) :: replaceTx pk t rest from rfl]
      rw [if_neg (show ¬(k, u).1 = pk from hk), txSum_cons, txSum_cons, ih hnodup.2 h]
      ring

/-- With unique keys, removing a found row subtracts exactly that row's
weight from every per-account sum. -/
theorem txSum_removeTx (account_id pk : Nat) (prev : Tx) (txs : List (Nat × Tx))
    (hnodup : (txs.map Prod.fst).Nodup) (h : findTx pk txs = some prev) :
    txSum account_id (removeTx pk txs)
      = txSum account_id txs - txWeight account_id (pk, prev) := by
  induction txs with
  | nil => simp [findTx] at h
  | cons p rest ih =>
    obtain ⟨k, u⟩ := p
    simp only [List.map_cons, List.nodup_cons] at hnodup
    rw [findTx] at h
    by_cases hk : k = pk
    · subst hk
      rw [if_pos rfl] at h
      injection h with h
      subst h
      have hrest : removeTx k rest = rest := removeTx_not_mem k rest hnodup.1
      simp only [removeTx, List.filter_cons]
      rw [if_neg (by simp)]
      rw [show rest.filter (fun q => q.1 ≠ k) = removeTx k rest from rfl, hrest, txSum_cons]
      ring
    · rw [if_neg hk] at h
      simp only [removeTx, List.filter_cons]
      rw [if_pos (by simpa using fun hh => hk hh)]
      rw [show rest.filter (fun q => q.1 ≠ pk) = removeTx pk rest from rfl,
        txSum_cons, txSum_cons, ih hnodup.2 h]
      ring

/-- The `pre_save` handler never touches the transaction table. -/
theorem update_balance_on_update_txs (s : LedgerState) (pk : Nat) (t : Tx) :
    (update_balance_on_update s pk t).txs = s.txs := by
  unfold update_balance_on_update
  cases findTx pk s.txs with
  | none => rfl
  | some prev =>
    dsimp only
    split <;> rfl

/-- Pointwise evaluation of `_apply_delta`. -/
theorem apply_delta_apply (accounts : Nat → Option Int) (account_id : Nat) (delta : Int)
    (pk : Nat) :
    _apply_delta accounts account_id delta pk
      = if pk = account_id then (accounts pk).map (fun b => b + delta)
        else accounts pk := rfl

/-- Creating a transaction preserves the ledger invariant. -/
theorem create_preserves_invariant (s : LedgerState) (pk : Nat) (t : Tx)
    (hcons : BalancesConsistent s) :
    BalancesConsistent (createTransaction s pk t) := by
  intro account_id b hb
  simp only [createTransaction] at hb ⊢
  rw [txSum_cons]
  by_cases ha : account_id = t.account_id
  · rw [apply_delta_apply, if_pos ha] at hb
    cases hs : s.accounts account_id with
    | none => rw [hs] at hb; simp at hb
    | some b0 =>
      rw [hs] at hb
      simp only [Option.map_some', Option.some.injEq] at hb
      have hc := hcons account_id b0 hs
      have hw : txWeight account_id (pk, t)
          = _calculate_delta t.amount t.transaction_type := by
        simp only [txWeight]
        rw [if_pos ha.symm]
      rw [hw]
      omega
  · rw [apply_delta_apply, if_neg ha] at hb
    have hc := hcons account_id b hb
    have hw : txWeight account_id (pk, t) = 0 := by
      simp only [txWeight]
      rw [if_neg (fun hh => ha hh.symm)]
    rw [hw]
    omega

/-- Creating a transaction with a fresh pk preserves key uniqueness. -/
theorem create_preserves_nodup (s : LedgerState) (pk : Nat) (t : Tx)
    (hfresh : findTx pk s.txs = none) (hnodup : KeysNodup s) :
    KeysNodup (createTransaction s pk t) := by
  unfold KeysNodup createTransaction at *
  simp only [List.map_cons, List.nodup_cons]
  exact ⟨(findTx_eq_none_iff pk s.txs).1 hfresh, hnodup⟩

/-- Updating a transaction preserves the ledger invariant. -/
theorem update_preserves_invariant (s : LedgerState) (pk : Nat) (t : Tx)
    (hcons : BalancesConsistent s) (hnodup : KeysNodup s) :
    BalancesConsistent (updateTransaction s pk t) := by
  cases hfind : findTx pk s.txs with
  | none =>
    have h1 : update_balance_on_update s pk t = s := by
      unfold update_balance_on_update; rw [hfind]
    have h2 : replaceTx pk t s.txs = s.txs :=
      replaceTx_not_mem _ _ _ ((findTx_eq_none_iff _ _).1 hfind)
    intro a b hb
    have hacc : (updateTransaction s pk t).accounts = s.accounts := by
      unfold updateTransaction; rw [h1]
    have htxs : (updateTransaction s pk t).txs = s.txs := by
      unfold updateTransaction; rw [h1]; exact h2
    rw [hacc] at hb
    rw [htxs]
    exact hcons a b hb
  | some prev =>
    by_cases hskip : prev.account_id = t.account_id ∧
        _calculate_delta prev.amount prev.transaction_type
          = _calculate_delta t.amount t.transaction_type
    · have h1 : update_balance_on_update s pk t = s := by
        unfold update_balance_on_update; rw [hfind]; simp [hskip]
      intro a b hb
      have hacc : (updateTransaction s pk t).accounts = s.accounts := by
        unfold updateTransaction; rw [h1]
      have htxs : (updateTransaction s pk t).txs = replaceTx pk t s.txs := by
        unfold updateTransaction; rw [h1]
      rw [hacc] at hb
      rw [htxs, txSum_replaceTx a pk t prev s.txs hnodup hfind]
      have hw : txWeight a (pk, prev) = txWeight a (pk, t) := by
        simp only [txWeight]
        rw [hskip.1, hskip.2]
      have hc := hcons a b hb
      omega
    · have h1 : (update_balance_on_update s pk t).accounts
          = _apply_delta
              (_apply_delta s.accounts prev.account_id
                (-(_calculate_delta prev.amount prev.transaction_type)))
              t.account_id (_calculate_delta t.amount t.transaction_type) := by
        unfold update_balance_on_update; rw [hfind]; simp [hskip]
      intro a b hb
      have hacc : (updateTransaction s pk t).accounts
          = (update_balance_on_update s pk t).accounts := rfl
      have htxs : (updateTransaction s pk t).txs = replaceTx pk t s.txs := by
        show replaceTx pk t (update_balance_on_update s pk t).txs = replaceTx pk t s.txs
        rw [update_balance_on_update_txs]
      rw [hacc, h1] at hb
      rw [htxs, txSum_replaceTx a pk t prev s.txs hnodup hfind]
      rw [apply_delta_apply, apply_delta_apply] at hb
      by_cases haB : a = t.account_id
      · rw [if_pos haB] at hb
        have hwn : txWeight a (pk, t)
            = _calculate_delta t.amount t.transaction_type := by
          simp only [txWeight]
          rw [if_pos haB.symm]
        by_cases haA : a = prev.account_id
        · rw [if_pos haA] at hb
          cases hs : s.accounts a with
          | none => rw [hs] at hb; simp at hb
          | some b0 =>
            rw [hs] at hb
            simp only [Option.map_some', Option.some.injEq] at hb
            have hc := hcons a b0 hs
            have hwp : txWeight a (pk, prev)
                = _calculate_delta prev.amount prev.transaction_type := by
              simp only [txWeight]
              rw [if_pos haA.symm]
            rw [hwn, hwp]
            omega
        · rw [if_neg haA] at hb
          cases hs : s.accounts a with
          | none => rw [hs] at hb; simp at hb
          | some b0 =>
            rw [hs] at hb
            simp only [Option.map_some', Option.some.injEq] at hb
            have hc := hcons a b0 hs
            have hwp : txWeight a (pk, prev) = 0 := by
              simp only [txWeight]
              rw [if_neg (fun hh => haA hh.symm)]
            rw [hwn, hwp]
            omega
      · rw [if_neg haB] at hb
        have hwn : txWeight a (pk, t) = 0 := by
          simp only [txWeight]
          rw [if_neg (fun hh => haB hh.symm)]
        by_cases haA : a = prev.account_id
        · rw [if_pos haA] at hb
          cases hs : s.accounts a with
          | none => rw [hs] at hb; simp at hb
          | some b0 =>
            rw [hs] at hb
            simp only [Option.map_some', Option.some.injEq] at hb
            have hc := hcons a b0 hs
            have hwp : txWeight a (pk, prev)
                = _calculate_delta prev.amount prev.transaction_type := by
              simp only [txWeight]
              rw [if_pos haA.symm]
            rw [hwn, hwp]
            omega
        · rw [if_neg haA] at hb
          have hc := hcons a b hb
          have hwp : txWeight a (pk, prev) = 0 := by
            simp only [txWeight]
            rw [if_neg (fun hh => haA hh.symm)]
          rw [hwn, hwp]
          omega

/-- Updating a transaction preserves key uniqueness. -/
theorem update_preserves_nodup (s : LedgerState) (pk : Nat) (t : Tx)
    (hnodup : KeysNodup s) : KeysNodup (updateTransaction s pk t) := by
  unfold KeysNodup
  show ((replaceTx pk t (update_balance_on_update s pk t).txs).map Prod.fst).Nodup
  rw [update_balance_on_update_txs, replaceTx_keys]
  exact hnodup

/-- Deleting a transaction preserves the ledger invariant. -/
theorem delete_preserves_invariant (s : LedgerState) (pk : Nat)
    (hcons : BalancesConsistent s) (hnodup : KeysNodup s) :
    BalancesConsistent (deleteTransaction s pk) := by
  cases hfind : findTx pk s.txs with
  | none =>
    unfold deleteTransaction
    rw [hfind]
    exact hcons
  | some prev =>
    intro a b hb
    have hacc : (deleteTransaction s pk).accounts
        = _apply_delta s.accounts prev.account_id
            (-(_calculate_delta prev.amount prev.transaction_type)) := by
      unfold deleteTransaction; rw [hfind]
    have htxs : (deleteTransaction s pk).txs = removeTx pk s.txs := by
      unfold deleteTransaction; rw [hfind]
    rw [hacc] at hb
    rw [htxs, txSum_removeTx a pk prev s.txs hnodup hfind]
    rw [apply_delta_apply] at hb
    by_cases haA : a = prev.account_id
    · rw [if_pos haA] at hb
      cases hs : s.accounts a with
      | none => rw [hs] at hb; simp at hb
      | some b0 =>
        rw [hs] at hb
        simp only [Option.map_some', Option.some.injEq] at hb
        have hc := hcons a b0 hs
        have hwp : txWeight a (pk, prev)
            = _calculate_delta prev.amount prev.transaction_type := by
          simp only [txWeight]
          rw [if_pos haA.symm]
        rw [hwp]
        omega
    · rw [if_neg haA] at hb
      have hc := hcons a b hb
      have hwp : txWeight a (pk, prev) = 0 := by
        simp only [txWeight]
        rw [if_neg (fun hh => haA hh.symm)]
      rw [hwp]
      omega

/-- Deleting a transaction preserves key uniqueness. -/
theorem delete_preserves_nodup (s : LedgerState) (pk : Nat)
    (hnodup : KeysNodup s) : KeysNodup (deleteTransaction s pk) := by
  unfold KeysNodup
  cases hfind : findTx pk s.txs with
  | none =>
    unfold deleteTransaction
    rw [hfind]
    exact hnodup
  | some prev =>
    have htxs : (deleteTransaction s pk).txs = removeTx pk s.txs := by
      unfold deleteTransaction; rw [hfind]
    rw [htxs]
    exact ((List.filter_sublist s.txs).map Prod.fst).nodup hnodup

/-- One legal write preserves both the invariant and key uniqueness. -/
theorem applyOp_preserves (s : LedgerState) (op : TxOp)
    (hcons : BalancesConsistent s) (hnodup : KeysNodup s) (hfresh : opFresh s op) :
    BalancesConsistent (applyOp s op) ∧ KeysNodup (applyOp s op) := by
  cases op with
  | create pk t =>
    exact ⟨create_preserves_invariant s pk t hcons,
      create_preserves_nodup s pk t hfresh hnodup⟩
  | update pk t =>
    exact ⟨update_preserves_invariant s pk t hcons hnodup,
      update_preserves_nodup s pk t hnodup⟩
  | delete pk =>
    exact ⟨delete_preserves_invariant s pk hcons hnodup,
      delete_preserves_nodup s pk hnodup⟩

/-- C1: Starting from a ledger where every account's balance equals the
sum of its transactions' signed effects (and transaction pks are unique),
after any legal sequence of create/update/delete writes every account's
balance again equals the sum of `delta(amount, type)` over the
transactions currently referencing it.  Since this holds for every
sequence, it holds after each operation of a longer sequence (every
prefix is itself a sequence). -/
theorem ledger_balances_consistent_after_ops (s : LedgerState) (ops : List TxOp)
    (hcons : BalancesConsistent s) (hnodup : KeysNodup s) (hlegal : opsLegal s ops) :
    BalancesConsistent (runOps s ops) := by
  induction ops generalizing s with
  | nil => exact hcons
  | cons op rest ih =>
    obtain ⟨hfresh, hrest⟩ := hlegal
    obtain ⟨hc, hn⟩ := applyOp_preserves s op hcons hnodup hfresh
    exact ih (applyOp s op) hc hn hrest

/-- Witness for C1: account 1 starting at balance 0 with no transactions,
then create INCOME 50.00 / update to EXPENSE 20.00 / delete. -/
theorem ledger_balances_consistent_after_ops_witness :
    BalancesConsistent
      (runOps { accounts := fun pk => if pk = 1 then some 0 else none, txs := [] }
        [.create 3 { account_id := 1, category_id := 1,
                     transaction_type := .INCOME, amount := 5000 },
         .update 3 { account_id := 1, category_id := 2,
                     transaction_type := .EXPENSE, amount := 2000 },
         .delete 3]) :=
  ledger_balances_consistent_after_ops _ _
    (by
      intro account_id b hb
      simp only [txSum, List.map_nil, List.sum_nil]
      by_cases h1 : account_id = 1
      · subst h1
        simp at hb
        omega
      · simp [h1] at hb)
    (by simp [KeysNodup])
    (by
      simp only [opsLegal, opFresh]
      exact ⟨rfl, trivial, trivial, trivial⟩)

/-! ## The form validation layer (`transactions/forms.py`) -/

/-- An `Account` row as the form sees it (`accounts/models.py`): pk,
owning user, current balance (cents).  Other fields (name, bank, type,
active flag, timestamps) play no role in validation. -/
structure AccountRec where
  id : Nat
  user_id : Nat
  balance : Int
deriving DecidableEq, Repr

/-- A `Category` row (`categories/models.py`): pk, owning user and type. -/
structure CategoryRec where
  id : Nat
  user_id : Nat
  category_type : TransactionType
deriving DecidableEq, Repr

namespace TransactionForm

/-- Method `TransactionForm._get_available_balance` (`transactions/forms.py`):
the account's current balance; when editing an existing transaction whose
original row references this same account, the original row's delta is
first reversed. -/
def _get_available_balance (original_instance : Option Tx) (account : AccountRec) : Int :=
  match original_instance with
  | some orig =>
    if orig.account_id = account.id then
      account.balance - _calculate_delta orig.amount orig.transaction_type
    else account.balance
  | none => account.balance

/-- The per-field errors `TransactionForm.clean` can add:
`account` (ownership), `category` (ownership or type mismatch), `amount`
(insufficient funds). -/
structure CleanErrors where
  account_error : Bool
  category_error : Bool
  amount_error : Bool
deriving DecidableEq, Repr

/-- Method `TransactionForm.clean` (`transactions/forms.py`): cross-field
validation.  The account and category must belong to the authenticated
user, the category type must match the transaction type, and for an
EXPENSE with a truthy amount the available balance must cover the
amount (`available_balance < amount` adds an error on `amount`). -/
def clean (user_id : Nat) (account : AccountRec) (category : CategoryRec)
    (transaction_type : TransactionType) (amount : Int)
    (original_instance : Option Tx) : CleanErrors :=
  { account_error := decide (account.user_id ≠ user_id),
    category_error :=
      decide (category.user_id ≠ user_id)
        || decide (category.category_type ≠ transaction_type),
    amount_error :=
      decide (transaction_type = TransactionType.EXPENSE)
        && decide (amount ≠ 0)
        && decide (_get_available_balance original_instance account < amount) }

/-- A form submission is rejected when any error was added. -/
def hasErrors (e : CleanErrors) : Bool :=
  e.account_error || e.category_error || e.amount_error

end TransactionForm

/-- View `TransactionCreateView` handling a POST: the form's queryset restricts
the account to an existing one; `clean` validates; on any error the form
is re-rendered and nothing is written; otherwise the row is saved and the
maintainer runs. -/
def transactionCreateRequest (s : LedgerState) (pk user_id : Nat) (t : Tx)
    (account_user : Nat) (category : CategoryRec) : LedgerState :=
  match s.accounts t.account_id with
  | none => s
  | some bal =>
    if TransactionForm.hasErrors
        (TransactionForm.clean user_id
          { id := t.account_id, user_id := account_user, balance := bal } category
          t.transaction_type t.amount none)
    then s
    else createTransaction s pk t

/-- View `TransactionUpdateView` handling a POST: the edited row must exist
(`get_object`); the form stores it as `_original_instance`; `clean`
validates against the selected account's current balance; on any error
nothing is written; otherwise the row is saved and the maintainer runs. -/
def transactionUpdateRequest (s : LedgerState) (pk user_id : Nat) (t : Tx)
    (account_user : Nat) (category : CategoryRec) : LedgerState :=
  match findTx pk s.txs with
  | none => s
  | some orig =>
    match s.accounts t.account_id with
    | none => s
    | some bal =>
      if TransactionForm.hasErrors
          (TransactionForm.clean user_id
            { id := t.account_id, user_id := account_user, balance := bal } category
            t.transaction_type t.amount (some orig))
      then s
      else updateTransaction s pk t

/-- C4: For a create or update of an EXPENSE transaction with positive
amount against an existing account, if the available balance (for an
edit: the current balance with the edited row's effect reversed when it
targets the same account) is strictly less than the amount, the form adds
the insufficient-funds error and the request leaves the ledger — in
particular every balance — unchanged; if the available balance is at
least the amount, the insufficient-funds check passes, and a fully valid
form proceeds to the write. -/
theorem expense_insufficient_funds_rejected (s : LedgerState)
    (pk user_id account_user : Nat) (t : Tx) (category : CategoryRec) (bal : Int)
    (hacct : s.accounts t.account_id = some bal)
    (hexp : t.transaction_type = TransactionType.EXPENSE)
    (hamt : 0 < t.amount) :
    (bal < t.amount →
      (TransactionForm.clean user_id
          { id := t.account_id, user_id := account_user, balance := bal } category
          t.transaction_type t.amount none).amount_error = true
      ∧ transactionCreateRequest s pk user_id t account_user category = s)
    ∧ (t.amount ≤ bal →
      (TransactionForm.clean user_id
          { id := t.account_id, user_id := account_user, balance := bal } category
          t.transaction_type t.amount none).amount_error = false)
    ∧ (TransactionForm.hasErrors
          (TransactionForm.clean user_id
            { id := t.account_id, user_id := account_user, balance := bal } category
            t.transaction_type t.amount none) = false →
        transactionCreateRequest s pk user_id t account_user category
          = createTransaction s pk t)
    ∧ (∀ orig, findTx pk s.txs = some orig →
        (TransactionForm._get_available_balance (some orig)
            { id := t.account_id, user_id := account_user, balance := bal } < t.amount →
          (TransactionForm.clean user_id
              { id := t.account_id, user_id := account_user, balance := bal } category
              t.transaction_type t.amount (some orig)).amount_error = true
          ∧ transactionUpdateRequest s pk user_id t account_user category = s)
        ∧ (t.amount ≤ TransactionForm._get_available_balance (some orig)
              { id := t.account_id, user_id := account_user, balance := bal } →
          (TransactionForm.clean user_id
              { id := t.account_id, user_id := account_user, balance := bal } category
              t.transaction_type t.amount (some orig)).amount_error = false)) := by
  have hne : t.amount ≠ 0 := by omega
  refine ⟨?_, ?_, ?_, ?_⟩
  · intro hlt
    have herr : (TransactionForm.clean user_id
        { id := t.account_id, user_id := account_user, balance := bal } category
        t.transaction_type t.amount none).amount_error = true := by
      simp [TransactionForm.clean, TransactionForm._get_available_balance, hexp, hne, hlt]
    refine ⟨herr, ?_⟩
    unfold transactionCreateRequest
    rw [hacct]
    dsimp only
    rw [if_pos (by simp [TransactionForm.hasErrors, herr])]
  · intro hge
    simp [TransactionForm.clean, TransactionForm._get_available_balance, hexp, hne]
    omega
  · intro hok
    unfold transactionCreateRequest
    rw [hacct]
    dsimp only
    rw [if_neg (by simp [hok])]
  · intro orig hfind
    constructor
    · intro hlt
      have herr : (TransactionForm.clean user_id
          { id := t.account_id, user_id := account_user, balance := bal } category
          t.transaction_type t.amount (some orig)).amount_error = true := by
        simp [TransactionForm.clean, hexp, hne, hlt]
      refine ⟨herr, ?_⟩
      unfold transactionUpdateRequest
      rw [hfind, hacct]
      dsimp only
      rw [if_pos (by simp [TransactionForm.hasErrors, herr])]
    · intro hge
      simp [TransactionForm.clean, hexp, hne]
      omega

/-- Witness for C4: account 1 with balance 50.00 and a submitted EXPENSE
of 100.00 (the spec's concrete example): the error fires and the ledger
is unchanged. -/
theorem expense_insufficient_funds_rejected_witness :
    (TransactionForm.clean 1
        { id := 1, user_id := 1, balance := 5000 }
        { id := 2, user_id := 1, category_type := .EXPENSE }
        TransactionType.EXPENSE 10000 none).amount_error = true
    ∧ transactionCreateRequest
        { accounts := fun pk => if pk = 1 then some 5000 else none, txs := [] }
        3 1
        { account_id := 1, category_id := 2,
          transaction_type := .EXPENSE, amount := 10000 } 1
        { id := 2, user_id := 1, category_type := .EXPENSE }
        = { accounts := fun pk => if pk = 1 then some 5000 else none, txs := [] } :=
  (expense_insufficient_funds_rejected
    { accounts := fun pk => if pk = 1 then some 5000 else none, txs := [] }
    3 1 1
    { account_id := 1, category_id := 2, transaction_type := .EXPENSE, amount := 10000 }
    { id := 2, user_id := 1, category_type := .EXPENSE } 5000
    rfl rfl (by decide)).1 (by decide)

/-- C10: When editing, the self-reversal adjustment to the available
balance applies only when the edited row's original account is the
selected account: on an account move the sufficiency check runs against
the newly selected account's current balance with no adjustment. -/
theorem available_balance_self_reversal_only_same_account (orig : Tx)
    (account : AccountRec) :
    (orig.account_id ≠ account.id →
      TransactionForm._get_available_balance (some orig) account = account.balance)
    ∧ (orig.account_id = account.id →
      TransactionForm._get_available_balance (some orig) account
        = account.balance - _calculate_delta orig.amount orig.transaction_type)
    ∧ (∀ (user_id : Nat) (category : CategoryRec) (amount : Int),
        orig.account_id ≠ account.id → amount ≠ 0 →
        (TransactionForm.clean user_id account category
            TransactionType.EXPENSE amount (some orig)).amount_error
          = decide (account.balance < amount)) := by
  refine ⟨?_, ?_, ?_⟩
  · intro h
    simp [TransactionForm._get_available_balance, h]
  · intro h
    simp [TransactionForm._get_available_balance, h]
  · intro user_id category amount h hamt
    simp [TransactionForm.clean, TransactionForm._get_available_balance, h, hamt]

/-- Witness for C10: editing a 40.00 EXPENSE away from account 1 (balance
10.00) onto account 2 (balance 30.00) checks against 30.00 directly. -/
theorem available_balance_self_reversal_only_same_account_witness :
    (TransactionForm._get_available_balance
        (some { account_id := 1, category_id := 9,
                transaction_type := .EXPENSE, amount := 4000 })
        { id := 2, user_id := 1, balance := 3000 } = 3000)
    ∧ (TransactionForm._get_available_balance
        (some { account_id := 1, category_id := 9,
                transaction_type := .EXPENSE, amount := 4000 })
        { id := 1, user_id := 1, balance := 1000 }
          = 1000 - _calculate_delta 4000 .EXPENSE) :=
  ⟨(available_balance_self_reversal_only_same_account
      { account_id := 1, category_id := 9, transaction_type := .EXPENSE, amount := 4000 }
      { id := 2, user_id := 1, balance := 3000 }).1 (by decide),
   (available_balance_self_reversal_only_same_account
      { account_id := 1, category_id := 9, transaction_type := .EXPENSE, amount := 4000 }
      { id := 1, user_id := 1, balance := 1000 }).2.1 rfl⟩

/-! ## The account edit form (`accounts/forms.py`, `accounts/views.py`) -/

/-- The `ACCOUNT_TYPE_CHOICES` of `accounts/models.py`. -/
inductive AccountType where
  | CHECKING
  | SAVINGS
  | WALLET
deriving DecidableEq, Repr

/-- An `Account` row with the fields `AccountForm` edits, plus the owner. -/
structure AccountRow where
  user_id : Nat
  name : String
  bank_name : String
  account_type : AccountType
  balance : Int
  is_active : Bool
deriving DecidableEq, Repr

/-- The POST data bound to `AccountForm` (`Meta.fields = ['name',
'bank_name', 'account_type', 'balance', 'is_active']`).  On edit the
balance widget carries the HTML `readonly` attribute and the label
'Saldo Atual', but a submitted value is still bound and cleaned
server-side. -/
structure AccountFormData where
  name : String
  bank_name : String
  account_type : AccountType
  balance : Int
  is_active : Bool
deriving DecidableEq, Repr

namespace AccountForm

/-- Method `AccountForm.clean_balance`: a negative submitted balance is a
validation error; otherwise the submitted value is the cleaned value. -/
def clean_balance (balance : Int) : Option Int :=
  if balance < 0 then none else some balance

/-- View `AccountUpdateView.form_valid` saving the bound form over an existing
row: every field in `Meta.fields` — `balance` included — is written from
the cleaned POST data.  Returns `none` when validation rejects the
submission. -/
def save_on_update (row : AccountRow) (data : AccountFormData) : Option AccountRow :=
  match clean_balance data.balance with
  | none => none
  | some b =>
    some { row with name := data.name, bank_name := data.bank_name,
                    account_type := data.account_type, balance := b,
                    is_active := data.is_active }

end AccountForm

/-- C7 (code bug): the account update path does write `balance`.  An
account whose stored balance is 100.00 receives an edit whose POST data
carries balance 999.00 — identical in all other fields — and the saved
row's balance is 999.00, not 100.00: the `readonly` widget attribute is
client-side only, so the user-facing edit form mutates `balance` in
contradiction with the model's own documentation ('auto-updated via
signals') and the form's read-only intent. -/
theorem account_update_form_writes_submitted_balance :
    (AccountForm.save_on_update
        { user_id := 1, name := "Conta", bank_name := "Banco",
          account_type := .CHECKING, balance := 10000, is_active := true }
        { name := "Conta", bank_name := "Banco",
          account_type := .CHECKING, balance := 99900,
          is_active := true }).map AccountRow.balance = some 99900
    ∧ (10000 : Int) ≠ 99900 := by
  constructor
  · rfl
  · decide

/-! ## C8: referential protection of referenced accounts and categories -/

/-- View `AccountDeleteView.post` with `on_delete=PROTECT` on
`Transaction.account`: deleting an account still referenced by any
transaction raises `ProtectedError`, which the view catches to show the
error message and redirect — nothing is deleted.  Otherwise the row is
removed.  The boolean reports success. -/
def accountDeleteRequest (s : LedgerState) (account_id : Nat) : LedgerState × Bool :=
  if s.txs.any (fun p => decide (p.2.account_id = account_id)) then (s, false)
  else ({ s with accounts := fun pk => if pk = account_id then none else s.accounts pk },
    true)

/-- View `CategoryDeleteView.post` with `on_delete=PROTECT` on
`Transaction.category`: the same protection for categories. -/
def categoryDeleteRequest (txs : List (Nat × Tx)) (categories : Nat → Option CategoryRec)
    (category_id : Nat) : (Nat → Option CategoryRec) × Bool :=
  if txs.any (fun p => decide (p.2.category_id = category_id)) then (categories, false)
  else ((fun pk => if pk = category_id then none else categories pk), true)

/-- C8: While at least one transaction references an account or a
category, the deletion attempt is rejected (the view reports the error)
and the whole state — the entity tables, the transactions and every
balance — is exactly what it was before the attempt. -/
theorem referenced_entity_delete_blocked (s : LedgerState)
    (categories : Nat → Option CategoryRec) (account_id category_id pk : Nat) (t : Tx)
    (hmem : (pk, t) ∈ s.txs) :
    (t.account_id = account_id → accountDeleteRequest s account_id = (s, false))
    ∧ (t.category_id = category_id →
        categoryDeleteRequest s.txs categories category_id = (categories, false)) := by
  constructor
  · intro h
    have hany : s.txs.any (fun p => decide (p.2.account_id = account_id)) = true := by
      rw [List.any_eq_true]
      exact ⟨(pk, t), hmem, by simp [h]⟩
    unfold accountDeleteRequest
    rw [if_pos hany]
  · intro h
    have hany : s.txs.any (fun p => decide (p.2.category_id = category_id)) = true := by
      rw [List.any_eq_true]
      exact ⟨(pk, t), hmem, by simp [h]⟩
    unfold categoryDeleteRequest
    rw [if_pos hany]

/-- Witness for C8: a ledger with one transaction referencing account 1
and category 2 blocks deleting either. -/
theorem referenced_entity_delete_blocked_witness :
    (accountDeleteRequest
        { accounts := fun pk => if pk = 1 then some 700 else none,
          txs := [(4, { account_id := 1, category_id := 2,
                        transaction_type := .INCOME, amount := 700 })] } 1
      = ({ accounts := fun pk => if pk = 1 then some 700 else none,
           txs := [(4, { account_id := 1, category_id := 2,
                         transaction_type := .INCOME, amount := 700 })] }, false))
    ∧ (categoryDeleteRequest
        [(4, { account_id := 1, category_id := 2,
               transaction_type := .INCOME, amount := 700 })]
        (fun pk => if pk = 2 then some { id := 2, user_id := 1, category_type := .INCOME }
          else none) 2
      = ((fun pk => if pk = 2 then some { id := 2, user_id := 1, category_type := .INCOME }
          else none), false)) :=
  ⟨(referenced_entity_delete_blocked
      { accounts := fun pk => if pk = 1 then some 700 else none,
        txs := [(4, { account_id := 1, category_id := 2,
                      transaction_type := .INCOME, amount := 700 })] }
      (fun pk => if pk = 2 then some { id := 2, user_id := 1, category_type := .INCOME }
        else none) 1 2 4
      { account_id := 1, category_id := 2, transaction_type := .INCOME, amount := 700 }
      (by simp)).1 rfl,
   (referenced_entity_delete_blocked
      { accounts := fun pk => if pk = 1 then some 700 else none,
        txs := [(4, { account_id := 1, category_id := 2,
                      transaction_type := .INCOME, amount := 700 })] }
      (fun pk => if pk = 2 then some { id := 2, user_id := 1, category_type := .INCOME }
        else none) 1 2 4
      { account_id := 1, category_id := 2, transaction_type := .INCOME, amount := 700 }
      (by simp)).2 rfl⟩

/-! ## C3: transactional scoping of the write pipelines

Neither settings module (`core/settings/development.py`,
`core/settings/production.py`) sets `ATOMIC_REQUESTS` on its `DATABASES`
entry, and no transaction view opens an `atomic()` block; the only
`atomic()` in the write paths is inside `update_balance_on_update`,
around its two `_apply_delta` calls.  In autocommit mode each database
statement outside that block commits on its own, so a failure between the
entity write and the balance adjustment leaves the earlier statement
committed.  The pipelines below make the possible failure points
explicit. -/

/-- The `django.db.transaction.atomic` context as used in `update_balance_on_update`:
if the block raises, every write inside it is rolled back and the
exception propagates; otherwise its writes commit together. -/
def atomicRun (s : LedgerState) (block : LedgerState → LedgerState)
    (blockRaises : Bool) : LedgerState :=
  if blockRaises then s else block s

/-- The create pipeline: the `INSERT` from `Model.save()` commits first,
then the `post_save` handler applies the delta in its own statement.
When the handler raises the row is already persisted and the balance
adjustment is lost. -/
def createPipelineRun (s : LedgerState) (pk : Nat) (t : Tx) (handlerRaises : Bool) :
    LedgerState :=
  let inserted : LedgerState := { s with txs := (pk, t) :: s.txs }
  if handlerRaises then inserted
  else { inserted with accounts :=
    (_apply_delta inserted.accounts t.account_id
      (_calculate_delta t.amount t.transaction_type)) }

/-- The update pipeline: `pre_save` runs first, wrapping only the two
balance adjustments in `atomic()`; the row `UPDATE` then runs in its own
autocommit transaction.  `blockRaises` is a failure inside the atomic
block (both deltas roll back and the exception aborts the save before
the row is written); `saveRaises` is a failure of the row `UPDATE` after
the handler's writes already committed. -/
def updatePipelineRun (s : LedgerState) (pk : Nat) (t : Tx)
    (blockRaises saveRaises : Bool) : LedgerState :=
  match findTx pk s.txs with
  | none => s
  | some previous =>
    let previous_delta := _calculate_delta previous.amount previous.transaction_type
    let new_delta := _calculate_delta t.amount t.transaction_type
    let afterSignal : LedgerState :=
      if previous.account_id = t.account_id ∧ previous_delta = new_delta then s
      else
        atomicRun s (fun st =>
          { st with accounts :=
              (_apply_delta (_apply_delta st.accounts previous.account_id (-previous_delta))
                t.account_id new_delta) }) blockRaises
    if blockRaises then afterSignal
    else if saveRaises then afterSignal
    else { afterSignal with txs := replaceTx pk t afterSignal.txs }

/-- The delete pipeline: the ORM's deletion collector wraps the row
`DELETE` and the `post_delete` handlers in one `atomic()` block, so any
failure leaves everything at its prior state. -/
def deletePipelineRun (s : LedgerState) (pk : Nat) (raises : Bool) : LedgerState :=
  atomicRun s (fun st => deleteTransaction st pk) raises

/-- C3 counterexample: a failing balance adjustment on the create path
leaves the transaction row persisted while the account balance is
untouched — a partially applied write, so the create path's entity write
and balance adjustment are not all-or-nothing. -/
theorem create_write_not_all_or_nothing_cex :
    ((createPipelineRun
        { accounts := fun pk => if pk = 1 then some 100000 else none, txs := [] } 9
        { account_id := 1, category_id := 1,
          transaction_type := .INCOME, amount := 50000 } true).txs
      ≠ ({ accounts := fun pk => if pk = 1 then some 100000 else none,
           txs := [] } : LedgerState).txs)
    ∧ (createPipelineRun
        { accounts := fun pk => if pk = 1 then some 100000 else none, txs := [] } 9
        { account_id := 1, category_id := 1,
          transaction_type := .INCOME, amount := 50000 } true).accounts 1
        = some 100000 := by
  constructor
  · decide
  · rfl

/-- C3 (amended): only the update handler's pair of balance adjustments
(and the ORM-wrapped delete) form an atomic unit.  A failure inside that
block leaves the whole ledger at its prior state; a failure of the row
update afterwards leaves the balance adjustments committed with the old
row still stored; a failure of the create path's handler leaves the new
row stored with no balance adjustment; and the failure-free pipelines
agree with the ledger operations. -/
theorem write_pipelines_atomicity_scope (s : LedgerState) (pk : Nat) (t prev : Tx)
    (hfind : findTx pk s.txs = some prev)
    (hchange : ¬(prev.account_id = t.account_id ∧
      _calculate_delta prev.amount prev.transaction_type
        = _calculate_delta t.amount t.transaction_type)) :
    (updatePipelineRun s pk t true false = s)
    ∧ (updatePipelineRun s pk t false true).txs = s.txs
    ∧ (updatePipelineRun s pk t false true).accounts
        = _apply_delta
            (_apply_delta s.accounts prev.account_id
              (-(_calculate_delta prev.amount prev.transaction_type)))
            t.account_id (_calculate_delta t.amount t.transaction_type)
    ∧ (∀ (s' : LedgerState) (pk' : Nat) (t' : Tx),
        (createPipelineRun s' pk' t' true).txs = (pk', t') :: s'.txs
        ∧ (createPipelineRun s' pk' t' true).accounts = s'.accounts)
    ∧ (updatePipelineRun s pk t false false = updateTransaction s pk t)
    ∧ (∀ (s' : LedgerState) (pk' : Nat),
        deletePipelineRun s' pk' true = s'
        ∧ deletePipelineRun s' pk' false = deleteTransaction s' pk') := by
  refine ⟨?_, ?_, ?_, ?_, ?_, ?_⟩
  · unfold updatePipelineRun
    rw [hfind]
    simp [atomicRun, hchange]
  · unfold updatePipelineRun
    rw [hfind]
    simp [atomicRun, hchange]
  · unfold updatePipelineRun
    rw [hfind]
    simp [atomicRun, hchange]
  · intro s' pk' t'
    exact ⟨rfl, rfl⟩
  · unfold updatePipelineRun updateTransaction update_balance_on_update
    rw [hfind]
    simp [atomicRun, hchange]
  · intro s' pk'
    exact ⟨rfl, rfl⟩

/-- Witness for the amended C3: a one-transaction ledger whose update
(INCOME 100.00 on account 1 becoming EXPENSE 30.00 on account 2) fails at
the row update: the balances moved, the row did not. -/
theorem write_pipelines_atomicity_scope_witness :
    (updatePipelineRun
        { accounts := fun pk => if pk = 1 then some 10000 else if pk = 2 then some 0 else none,
          txs := [(5, { account_id := 1, category_id := 1,
                        transaction_type := .INCOME, amount := 10000 })] } 5
        { account_id := 2, category_id := 4,
          transaction_type := .EXPENSE, amount := 3000 } false true).txs
      = [(5, { account_id := 1, category_id := 1,
               transaction_type := .INCOME, amount := 10000 })] :=
  (write_pipelines_atomicity_scope
    { accounts := fun pk => if pk = 1 then some 10000 else if pk = 2 then some 0 else none,
      txs := [(5, { account_id := 1, category_id := 1,
                    transaction_type := .INCOME, amount := 10000 })] } 5
    { account_id := 2, category_id := 4, transaction_type := .EXPENSE, amount := 3000 }
    { account_id := 1, category_id := 1, transaction_type := .INCOME, amount := 10000 }
    rfl (by decide)).2.1
